import Mathlib

/-!
Verification development for the `tradingbot` repository (spot2 engine and
its shared components).

Conventions of the embedding:
* Python floats are modelled as exact rationals (`ℚ`); the claims under
  check are rational-exact.
* `collections.deque` is modelled as a `List` with explicit eviction.
* Stateful worker code is modelled as pure step functions on explicit
  state records; the mutex around the scheduler counters serialises the
  concurrent operations, so an interleaving is a list of operations.
* `int(x)` (Python truncation toward zero) is `pyInt`; `math.floor` is `⌊·⌋`.
-/

namespace TradingBot

/-! ### Scheduler counters (spot2/bot.py, `_open_trades_lock` block)

`SpotBotV2` keeps `_open_trades_count : int` and `_symbol_open_count :
Dict[str, int]`, both mutated only under `self._open_trades_lock`.
The reservation is bot.py lines 413-421, the release is lines 759-765
(the same code appears as the entry-failure rollback, lines 569-574). -/

structure SchedCfg where
  max_open_trades : Nat
  max_open_trades_per_symbol : Nat

structure SchedState where
  open_trades_count : Nat
  symbol_open_count : String → Nat

/-- Initial counters of a fresh bot (`_open_trades_count = 0`,
`_symbol_open_count = {s: 0 for s in symbols}`). -/
def initSched : SchedState :=
  { open_trades_count := 0, symbol_open_count := fun _ => 0 }

/-- bot.py lines 416-421: under the lock, check both caps and increment
both counters, or do nothing and report failure. -/
def tryReserve (cfg : SchedCfg) (st : SchedState) (sym : String) : SchedState × Bool :=
  if st.symbol_open_count sym < cfg.max_open_trades_per_symbol ∧
     st.open_trades_count < cfg.max_open_trades then
    ({ open_trades_count := st.open_trades_count + 1,
       symbol_open_count := fun t =>
         if t = sym then st.symbol_open_count sym + 1 else st.symbol_open_count t },
     true)
  else
    (st, false)

/-- bot.py lines 760-765: decrement the global counter if positive and the
per-symbol counter if positive (each guard independent, saturating at 0). -/
def releaseSlot (st : SchedState) (sym : String) : SchedState :=
  { open_trades_count :=
      if 0 < st.open_trades_count then st.open_trades_count - 1 else st.open_trades_count,
    symbol_open_count := fun t =>
      if t = sym then
        (if 0 < st.symbol_open_count sym then st.symbol_open_count sym - 1
         else st.symbol_open_count sym)
      else st.symbol_open_count t }

inductive SchedOp where
  | reserve (sym : String)
  | release (sym : String)

def schedStep (cfg : SchedCfg) (st : SchedState) : SchedOp → SchedState
  | .reserve sym => (tryReserve cfg st sym).1
  | .release sym => releaseSlot st sym

/-- An interleaving of reservation and release operations (the mutex
serialises them into a sequence). -/
def runSched (cfg : SchedCfg) (st : SchedState) (ops : List SchedOp) : SchedState :=
  ops.foldl (schedStep cfg) st

def SchedInv (cfg : SchedCfg) (st : SchedState) : Prop :=
  st.open_trades_count ≤ cfg.max_open_trades ∧
  ∀ s, st.symbol_open_count s ≤ cfg.max_open_trades_per_symbol

/-! ### Signal engine (spot2/signals.py) -/

inductive Side where
  | BUY
  | SELL
deriving DecidableEq

inductive SignalMode where
  | contrarian
  | momentum
deriving DecidableEq

structure Signal where
  side : Option Side
  score : ℚ
deriving DecidableEq

/-- signals.py line 31: `z = (change_pct / sigma) if sigma > 1e-9 else 0.0`. -/
def zOf (change_pct sigma : ℚ) : ℚ :=
  if sigma > 1 / 1000000000 then change_pct / sigma else 0

/-- signals.py `compute_signal_z` (lines 30-42). -/
def compute_signal_z (change_pct sigma k_base : ℚ) (mode : SignalMode) : Signal :=
  let z := zOf change_pct sigma
  match mode with
  | .contrarian =>
    if z ≤ -k_base then { side := some .BUY, score := |z| }
    else if z ≥ k_base then { side := some .SELL, score := |z| }
    else { side := none, score := 0 }
  | .momentum =>
    if z ≥ k_base then { side := some .BUY, score := |z| }
    else if z ≤ -k_base then { side := some .SELL, score := |z| }
    else { side := none, score := 0 }

/-- signals.py `ZScoreHistory`: a bounded deque of clamped absolute
z-scores (`deque(maxlen=maxlen)`, default 600). -/
structure ZScoreHistory where
  maxlen : Nat
  values : List ℚ

/-- signals.py line 18-19: `self.values.append(max(0.0, float(z_abs)))`;
the deque evicts from the front once `maxlen` is exceeded. -/
def ZScoreHistory.push (h : ZScoreHistory) (z_abs : ℚ) : ZScoreHistory :=
  let v := h.values ++ [max 0 z_abs]
  { h with values := v.drop (v.length - h.maxlen) }

/-- Python `int(x)`: truncation toward zero. -/
def pyInt (q : ℚ) : Int :=
  if 0 ≤ q then ⌊q⌋ else ⌈q⌉

/-- signals.py lines 21-27: sort the stored values, return 0.0 when empty,
else the element at index `int(p * (len(arr) - 1))` with `p` clamped into
`[0, 0.999]`. -/
def ZScoreHistory.percentile (h : ZScoreHistory) (p : ℚ) : ℚ :=
  let arr := List.insertionSort (· ≤ ·) h.values
  if arr.isEmpty then 0
  else
    let p' := min (999 / 1000) (max 0 p)
    let k := (pyInt (p' * ((arr.length : ℚ) - 1))).toNat
    arr.getD k 0

/-- bot.py line 397: `eff = max(k_base, dyn)` — the dynamic threshold. -/
def effectiveK (k_base dyn : ℚ) : ℚ := max k_base dyn

/-! ### Volatility state (common/strategy.py) -/

structure VolatilityState where
  ewm_var : ℚ
  window : List ℚ

/-- strategy.py `update_volatility_state` (lines 55-68):
`var = λ·ewm_var + (1-λ)·ret²`; append `ret` to the window and pop the
oldest sample once the window exceeds `max_window`. -/
def update_volatility_state (state : VolatilityState) (ret : ℚ)
    (lambda_ewm : ℚ) (max_window : Nat) : VolatilityState :=
  let var := lambda_ewm * state.ewm_var + (1 - lambda_ewm) * (ret * ret)
  let w := state.window ++ [ret]
  { ewm_var := var, window := if max_window < w.length then w.tail else w }

/-- A stream of ticks folded through the volatility update. -/
def runVolatility (st : VolatilityState) (rets : List ℚ)
    (lambda_ewm : ℚ) (max_window : Nat) : VolatilityState :=
  rets.foldl (fun s r => update_volatility_state s r lambda_ewm max_window) st

/-! ### Open-position exit evaluation (spot2/bot.py worker, lines 576-725)

The per-tick evaluation of an open position, as a pure function of the
relevant `SymbolState` fields and the tick's price.  The peak update of
lines 654-661 happens before the SL/TP/trailing decision chain of lines
664-725, so the trailing branch sees the updated peak. -/

structure ExitConfig where
  stop_loss_percent : ℚ
  take_profit_percent : ℚ
  exit_hysteresis_percent : ℚ
  min_hold_sec : ℚ
  trailing_enabled : Bool
  trailing_activation_gain_percent : ℚ
  trailing_retrace_percent : ℚ

inductive ExitReason where
  | FORCE
  | SL
  | TP
  | TRAIL
deriving DecidableEq

/-- bot.py lines 655-659: reset a non-positive peak to the entry price,
then raise it to the current price. -/
def updatePeak (entry_price max_price_since_entry price : ℚ) : ℚ :=
  max (if max_price_since_entry ≤ 0 then entry_price else max_price_since_entry) price

/-- bot.py lines 690/598: `(peak - entry) / entry * 100` guarded by `entry > 0`. -/
def gainFromEntryPct (entry_price peak : ℚ) : ℚ :=
  if 0 < entry_price then (peak - entry_price) / entry_price * 100 else 0

/-- bot.py line 694: `trailing_stop = peak * (1.0 - retrace / 100.0)`. -/
def trailingStop (peak retrace : ℚ) : ℚ :=
  peak * (1 - retrace / 100)

/-- The exit decision of one tick of the worker's OPEN branch
(bot.py lines 576-725).  `force_close` is the flag read from the state
store at lines 641-651; it presets `exit_reason = "FORCE"` which the
`if/elif` chain of lines 664-725 then overwrites when SL/TP/TRAIL fire.
When the hold gate is closed, `sl_trig = 0.0` and `tp_trig = float("inf")`
(lines 590-591), so the TP comparison `price >= tp_trig` is false for
every finite price — encoded as the conjunction with the gate. -/
def evalExit (cfg : ExitConfig) (entry_price max_price_since_entry elapsed price : ℚ)
    (force_close : Bool) : Option ExitReason :=
  let sl_px := entry_price * (1 - cfg.stop_loss_percent / 100)
  let tp_px := entry_price * (1 + cfg.take_profit_percent / 100)
  let sl_trig_base := sl_px * (1 - cfg.exit_hysteresis_percent / 100)
  let tp_trig_base := tp_px * (1 + cfg.exit_hysteresis_percent / 100)
  let hold_open := cfg.min_hold_sec ≤ elapsed
  let sl_trig := if hold_open then sl_trig_base else 0
  let peak := updatePeak entry_price max_price_since_entry price
  if price ≤ sl_trig then some .SL
  else if hold_open ∧ tp_trig_base ≤ price then some .TP
  else if cfg.trailing_enabled = true ∧ cfg.min_hold_sec ≤ elapsed ∧
          cfg.trailing_activation_gain_percent ≤ gainFromEntryPct entry_price peak ∧
          price ≤ trailingStop peak cfg.trailing_retrace_percent then some .TRAIL
  else if force_close then some .FORCE
  else none

/-- Modelled from the spec: §4.5 trailing stop formula
`max(peak × (1 − retracePct/100), peak − atrMultiplier × recentAvgAbsMove)`,
stated for comparison with the code's `trailingStop` (bot.py line 694),
which has no ATR term. -/
def trailingStopSpec (peak retrace atr_multiplier recent_avg_abs_move : ℚ) : ℚ :=
  max (peak * (1 - retrace / 100)) (peak - atr_multiplier * recent_avg_abs_move)

/-! ### Execution layer exits (spot2/execution.py) -/

structure BookTicker where
  bid : ℚ
  ask : ℚ

/-- The trading-rule fields read by the execution layer (symbols.json /
`GET /api/v1/common/symbols`); absent keys are `none`. -/
structure SymbolRules where
  basePrecision : Option Int
  quotePrecision : Option Int
  minTradeSize : Option ℚ
  maxTradeSize : Option ℚ
  minAmount : Option ℚ
  minTradeAmount : Option ℚ
  minNotional : Option ℚ
  minTradeDumping : Option ℚ
  maxTradeDumping : Option ℚ

/-- `quantity = (int(quantity * factor)) / factor` with `factor = 10 ** prec`,
guarded by `prec >= 0` (execution.py lines 264-267 and 347-349). -/
def floorToPrecision (prec : Int) (q : ℚ) : ℚ :=
  if 0 ≤ prec then ((pyInt (q * 10 ^ prec.toNat) : ℚ)) / 10 ^ prec.toNat else q

/-- Python `float(f"{x:.{prec}f}")`: round to `prec` decimals, ties to even
(execution.py line 346). -/
def pyRoundHalfEven (q : ℚ) : Int :=
  let n := ⌊q⌋
  if q - n < 1 / 2 then n
  else if (1 : ℚ) / 2 < q - n then n + 1
  else if n % 2 = 0 then n else n + 1

def roundToPrecision (prec : Int) (q : ℚ) : ℚ :=
  if 0 ≤ prec then ((pyRoundHalfEven (q * 10 ^ prec.toNat) : ℚ)) / 10 ^ prec.toNat else q

/-- What an exit call does: reject with a typed error string before any
exchange traffic, or send a MARKET / LIMIT order of the given size. -/
inductive ExitOutcome where
  | rejected (err : String)
  | marketOrder (qty : ℚ)
  | limitOrder (px qty : ℚ)
deriving DecidableEq

/-- execution.py lines 273-278: optional dumping-limit clamps applied after
the minimum-size check. -/
def clampDumping (rules : SymbolRules) (q : ℚ) : ℚ :=
  let q1 := match rules.minTradeDumping with
    | some md => if q < md then md else q
    | none => q
  match rules.maxTradeDumping with
  | some mx => if mx < q1 then mx else q1
  | none => q1

/-- `ExecutionLayer.place_exit_market` (execution.py lines 257-284): floor
the quantity to the base precision; if a `minTradeSize` rule exists and the
floored quantity is below it, return the typed `size_too_small` error;
otherwise apply the dumping clamps and send the market order.  There is no
minimum-notional check on this path. -/
def place_exit_market (rules : SymbolRules) (quantity : ℚ) : ExitOutcome :=
  let base_prec := rules.basePrecision.getD 6
  let q1 := floorToPrecision base_prec quantity
  match rules.minTradeSize with
  | some min_size =>
      if q1 < min_size then .rejected "size_too_small"
      else .marketOrder (clampDumping rules q1)
  | none => .marketOrder (clampDumping rules q1)

/-- execution.py lines 337-344: the first of `minAmount`, `minTradeAmount`,
`minNotional` present in the rules. -/
def minAmountOf (rules : SymbolRules) : Option ℚ :=
  (rules.minAmount.orElse fun _ => rules.minTradeAmount).orElse fun _ => rules.minNotional

/-- execution.py lines 327-329 and 345-346: limit price = the larger of the
take-profit floor and the best ask, rounded to the quote precision. -/
def sellLimitPx (rules : SymbolRules) (min_price : ℚ) (book1 : Option BookTicker) : ℚ :=
  let ask := book1.map BookTicker.ask
  roundToPrecision (rules.quotePrecision.getD 6) (max min_price (ask.getD min_price))

/-- execution.py lines 347-360: floor the quantity to the base precision,
then floor it to a multiple of `minTradeSize` and re-apply the precision. -/
def normalizedSellQty (rules : SymbolRules) (quantity : ℚ) : ℚ :=
  let base_prec := rules.basePrecision.getD 6
  let q1 := floorToPrecision base_prec quantity
  match rules.minTradeSize with
  | some ms =>
      if 0 < ms then floorToPrecision base_prec (max 0 ((⌊q1 / ms⌋ : ℚ) * ms))
      else q1
  | none => q1

/-- execution.py lines 363-369: conservative reference price
`min(limit_px, bid)` when a bid is available. -/
def sellPriceRef (rules : SymbolRules) (min_price : ℚ)
    (book1 book2 : Option BookTicker) : ℚ :=
  match book2.map BookTicker.bid with
  | some b => min (sellLimitPx rules min_price book1) b
  | none => sellLimitPx rules min_price book1

/-- execution.py line 370/373: the rejection condition — normalized quantity
below `minTradeSize`, or reference notional below the minimum notional. -/
def exitSellTooSmall (rules : SymbolRules) (q price_ref : ℚ) : Bool :=
  (match rules.minTradeSize with
   | some ms => decide (q < ms)
   | none => false) ||
  (match minAmountOf rules with
   | some ma => decide (price_ref * q < ma)
   | none => false)

/-- `ExecutionLayer.place_exit_limit_maker_sell` (execution.py lines
323-380), up to the first order placed.  The two nested identical
conditions mirror lines 370 and 373 of the source; the inner `else`
(market fallback, line 375) is unreachable because the conditions agree. -/
def place_exit_limit_maker_sell (rules : SymbolRules) (quantity min_price : ℚ)
    (book1 book2 : Option BookTicker) : ExitOutcome :=
  let px := sellLimitPx rules min_price book1
  let q := normalizedSellQty rules quantity
  let price_ref := sellPriceRef rules min_price book1 book2
  if exitSellTooSmall rules q price_ref then
    if exitSellTooSmall rules q price_ref then .rejected "notional_too_small"
    else place_exit_market rules q
  else .limitOrder px q

/-! ### JSON state store (common/state_store.py)

The JSON text codec (`json.dumps` / `json.loads`) is the Python standard
library — an external capability per the spec — and is modelled as the
identity on parsed JSON trees; the store file holds `none` when missing
or unparsable.  `save` writes a temp file and atomically renames it, which
in this model is the atomic replacement of the file contents. -/

inductive Json where
  | null
  | bool (b : Bool)
  | num (q : ℚ)
  | str (s : String)
  | arr (xs : List Json)
  | obj (fields : List (String × Json))

abbrev StoreMap := List (String × Json)

/-- `StateStore.load` (state_store.py lines 18-27): missing file, parse
failure, or a non-dict document all yield `{}`. -/
def storeLoad (file : Option Json) : StoreMap :=
  match file with
  | some (.obj m) => m
  | _ => []

/-- `StateStore.save` (state_store.py lines 29-32): serialize the mapping
and atomically replace the file. -/
def storeSave (m : StoreMap) : Option Json :=
  some (.obj m)

/-- `StateStore.clear_symbol` (state_store.py lines 41-45): reload, delete
the key if present, save; otherwise leave the file untouched.  A Python
dict has unique keys, so `del` removes every binding of the key. -/
def clear_symbol (file : Option Json) (symbol : String) : Option Json :=
  let data := storeLoad file
  if (data.lookup symbol).isSome then
    storeSave (data.filter fun kv => kv.1 ≠ symbol)
  else file

/-! ### Worker exit finalization (spot2/bot.py lines 740-778) -/

/-- The position-relevant fields of `SymbolState` (bot.py lines 23-34). -/
structure WorkerPos where
  in_position : Bool
  side : Option Side
  quantity : ℚ
  entry_price : ℚ
  stop_loss : ℚ
  take_profit : ℚ
  entry_time : ℚ
  max_price_since_entry : ℚ

/-- bot.py lines 752-757: the fields reset after a confirmed exit
(`stop_loss` / `take_profit` are left as they were). -/
def clearedPos (st : WorkerPos) : WorkerPos :=
  { st with in_position := false, side := none, quantity := 0, entry_price := 0,
            entry_time := 0, max_price_since_entry := 0 }

structure TickOutcome where
  pos : WorkerPos
  file : Option Json
  sched : SchedState
  halted : Bool

/-- bot.py lines 740-778: finalize an exit attempt.  On `exit_resp.ok`
the in-memory position is reset, the persisted entry removed
(`clear_symbol`) and both scheduler slots released; on failure everything
is kept for a retry on the next tick, and the worker halts (`return`)
exactly when the error code starts with `notional_too_small`. -/
def finalizeExitTick (symbol : String) (resp_ok : Bool) (resp_err : Option String)
    (st : WorkerPos) (file : Option Json) (sched : SchedState) : TickOutcome :=
  if resp_ok then
    { pos := clearedPos st, file := clear_symbol file symbol,
      sched := releaseSlot sched symbol, halted := false }
  else
    { pos := st, file := file, sched := sched,
      halted := ((resp_err.getD "").toLower).startsWith "notional_too_small" }

/-! ### Exchange client retry policy (spot/clients/pionex_client.py) -/

/-- One HTTP exchange as the client observes it: a status code with a
summary of the JSON body (`result: false` plus code/message marks a
business rejection), or a transport exception. -/
inductive HttpResp where
  | http (status : Nat) (result_false : Bool) (code msg : String)
  | netError (msg : String)

/-- The `ok` / `error` fields of the client's `ApiResponse`. -/
structure ApiResult where
  ok : Bool
  error : Option String
deriving DecidableEq

/-- `f"{code or ''} {message or ''}".strip() or "result_false"`. -/
def errOfCodeMsg (code msg : String) : String :=
  let s := (code ++ " " ++ msg).trim
  if s = "" then "result_false" else s

/-- Terminal handling of one response once the retry branches are passed:
`raise_for_status` turns a 4xx into a caught exception (typed error),
`result: false` surfaces the exchange's code/message, otherwise ok. -/
def terminalResp (status : Nat) (result_false : Bool) (code msg : String) : ApiResult :=
  if 400 ≤ status then { ok := false, error := some ("HTTP " ++ toString status) }
  else if result_false then { ok := false, error := some (errOfCodeMsg code msg) }
  else { ok := true, error := none }

inductive BackoffKind where
  | rate
  | server
deriving DecidableEq

/-- `PionexClient.place_market_order`'s retry loop (lines 336-376) run
against a stream of successive responses: HTTP 429 sleeps
`min(60, 2 ** attempt)` and retries, HTTP 5xx sleeps `min(10, 2 ** attempt)`
and retries, anything else returns immediately.  The result is `none`
while the stream never leaves the retry classes, paired with the tagged
backoff sleeps performed. -/
def marketOrderLoop : List HttpResp → Nat → Option ApiResult × List (BackoffKind × Nat)
  | [], _ => (none, [])
  | .netError m :: _, _ => (some { ok := false, error := some m }, [])
  | .http status result_false code msg :: rest, attempt =>
      if status = 429 then
        let a := attempt + 1
        let r := marketOrderLoop rest a
        (r.1, (.rate, min 60 (2 ^ a)) :: r.2)
      else if 500 ≤ status then
        let a := attempt + 1
        let r := marketOrderLoop rest a
        (r.1, (.server, min 10 (2 ^ a)) :: r.2)
      else
        (some (terminalResp status result_false code msg), [])

/-- `PionexClient.place_limit_order` (lines 427-441): a single request; a
429 returns the typed `rate_limited` error immediately — no retry loop. -/
def placeLimitOrderResp (r : HttpResp) : ApiResult :=
  match r with
  | .netError m => { ok := false, error := some m }
  | .http status result_false code msg =>
      if status = 429 then { ok := false, error := some "rate_limited" }
      else terminalResp status result_false code msg

/-- A response in one of the two retried classes (429 or 5xx). -/
def retryable : HttpResp → Prop
  | .http status _ _ _ => status = 429 ∨ 500 ≤ status
  | .netError _ => False

/-! ## Theorems -/

theorem tryReserve_pos (cfg : SchedCfg) (st : SchedState) (sym : String)
    (hc : st.symbol_open_count sym < cfg.max_open_trades_per_symbol ∧
      st.open_trades_count < cfg.max_open_trades) :
    tryReserve cfg st sym =
      ({ open_trades_count := st.open_trades_count + 1,
         symbol_open_count := fun t =>
           if t = sym then st.symbol_open_count sym + 1 else st.symbol_open_count t },
       true) := by
  unfold tryReserve
  rw [if_pos hc]

theorem tryReserve_neg (cfg : SchedCfg) (st : SchedState) (sym : String)
    (hc : ¬(st.symbol_open_count sym < cfg.max_open_trades_per_symbol ∧
      st.open_trades_count < cfg.max_open_trades)) :
    tryReserve cfg st sym = (st, false) := by
  unfold tryReserve
  rw [if_neg hc]

theorem tryReserve_preserves_inv (cfg : SchedCfg) (st : SchedState) (sym : String)
    (h : SchedInv cfg st) : SchedInv cfg (tryReserve cfg st sym).1 := by
  by_cases hc : st.symbol_open_count sym < cfg.max_open_trades_per_symbol ∧
      st.open_trades_count < cfg.max_open_trades
  · rw [tryReserve_pos cfg st sym hc]
    refine ⟨hc.2, fun s => ?_⟩
    by_cases hs : s = sym
    · simpa [hs] using hc.1
    · simpa [hs] using h.2 s
  · rw [tryReserve_neg cfg st sym hc]
    exact h

theorem releaseSlot_count (st : SchedState) (sym : String) :
    (releaseSlot st sym).open_trades_count = st.open_trades_count - 1 := by
  by_cases h : 0 < st.open_trades_count
  · simp [releaseSlot, h]
  · simp only [releaseSlot, if_neg h]
    omega

theorem releaseSlot_symbol_self (st : SchedState) (sym : String) :
    (releaseSlot st sym).symbol_open_count sym = st.symbol_open_count sym - 1 := by
  by_cases h : 0 < st.symbol_open_count sym
  · simp [releaseSlot, h]
  · simp [releaseSlot, h]
    omega

theorem releaseSlot_symbol_other (st : SchedState) (sym t : String) (ht : t ≠ sym) :
    (releaseSlot st sym).symbol_open_count t = st.symbol_open_count t := by
  simp [releaseSlot, ht]

theorem releaseSlot_preserves_inv (cfg : SchedCfg) (st : SchedState) (sym : String)
    (h : SchedInv cfg st) : SchedInv cfg (releaseSlot st sym) := by
  refine ⟨?_, fun s => ?_⟩
  · have := h.1
    rw [releaseSlot_count]
    omega
  · by_cases hs : s = sym
    · have := h.2 sym
      rw [hs, releaseSlot_symbol_self]
      omega
    · rw [releaseSlot_symbol_other st sym s hs]
      exact h.2 s

theorem runSched_preserves_inv (cfg : SchedCfg) (ops : List SchedOp) (st : SchedState)
    (h : SchedInv cfg st) : SchedInv cfg (runSched cfg st ops) := by
  induction ops generalizing st with
  | nil => exact h
  | cons op rest ih =>
      cases op with
      | reserve sym => exact ih _ (tryReserve_preserves_inv cfg st sym h)
      | release sym => exact ih _ (releaseSlot_preserves_inv cfg st sym h)

/-- C1: along every interleaving of reservations and releases the global
open-trade counter stays within `[0, maxOpenTrades]` and each per-symbol
counter within `[0, maxOpenTradesPerSymbol]` (counters are `Nat`, so the
lower bound is intrinsic); a reservation increments both counters exactly
when both caps allow and otherwise changes nothing; a release decrements
both counters, saturating at zero; and with `maxOpenTrades = 1`, of two
reservations made in the same tick by two flat symbols the first succeeds,
the second fails, and the second symbol's counter stays at zero. -/
theorem scheduler_reserve_release_caps (cfg : SchedCfg) (st : SchedState)
    (ops : List SchedOp) (sym s1 s2 : String)
    (hinv : SchedInv cfg st) (hne : s1 ≠ s2) :
    SchedInv cfg (runSched cfg st ops) ∧
    ((st.symbol_open_count sym < cfg.max_open_trades_per_symbol ∧
      st.open_trades_count < cfg.max_open_trades ∧
      (tryReserve cfg st sym).2 = true ∧
      (tryReserve cfg st sym).1.open_trades_count = st.open_trades_count + 1 ∧
      (tryReserve cfg st sym).1.symbol_open_count sym = st.symbol_open_count sym + 1) ∨
     ((tryReserve cfg st sym).2 = false ∧ (tryReserve cfg st sym).1 = st)) ∧
    ((releaseSlot st sym).open_trades_count = st.open_trades_count - 1 ∧
     (releaseSlot st sym).symbol_open_count sym = st.symbol_open_count sym - 1 ∧
     ∀ t, t ≠ sym → (releaseSlot st sym).symbol_open_count t = st.symbol_open_count t) ∧
    (cfg.max_open_trades = 1 → 1 ≤ cfg.max_open_trades_per_symbol →
     st.open_trades_count = 0 → st.symbol_open_count s1 = 0 → st.symbol_open_count s2 = 0 →
     (tryReserve cfg st s1).2 = true ∧
     (tryReserve cfg (tryReserve cfg st s1).1 s2).2 = false ∧
     (tryReserve cfg (tryReserve cfg st s1).1 s2).1.symbol_open_count s2 = 0) := by
  refine ⟨runSched_preserves_inv cfg ops st hinv, ?_, ?_, ?_⟩
  · by_cases hc : st.symbol_open_count sym < cfg.max_open_trades_per_symbol ∧
        st.open_trades_count < cfg.max_open_trades
    · left
      rw [tryReserve_pos cfg st sym hc]
      exact ⟨hc.1, hc.2, rfl, rfl, by simp⟩
    · right
      rw [tryReserve_neg cfg st sym hc]
      exact ⟨rfl, rfl⟩
  · exact ⟨releaseSlot_count st sym, releaseSlot_symbol_self st sym,
      fun t ht => releaseSlot_symbol_other st sym t ht⟩
  · intro hmax hper h0 hs1 hs2
    have hc1 : st.symbol_open_count s1 < cfg.max_open_trades_per_symbol ∧
        st.open_trades_count < cfg.max_open_trades := by
      constructor <;> omega
    have e1 := tryReserve_pos cfg st s1 hc1
    have hc2 : ¬((tryReserve cfg st s1).1.symbol_open_count s2 <
          cfg.max_open_trades_per_symbol ∧
        (tryReserve cfg st s1).1.open_trades_count < cfg.max_open_trades) := by
      rw [e1]
      simp only
      omega
    have e2 := tryReserve_neg cfg (tryReserve cfg st s1).1 s2 hc2
    refine ⟨by rw [e1], by rw [e2], ?_⟩
    rw [e2, e1]
    simp [hne.symm, hs2]

/-- Witness for `scheduler_reserve_release_caps`: with `maxOpenTrades = 1`
and two flat symbols, the first reservation succeeds and the second fails. -/
theorem scheduler_reserve_release_caps_witness :
    (tryReserve ⟨1, 1⟩ initSched "BTC_USDT").2 = true ∧
    (tryReserve ⟨1, 1⟩ (tryReserve ⟨1, 1⟩ initSched "BTC_USDT").1 "ETH_USDT").2 = false ∧
    (tryReserve ⟨1, 1⟩ (tryReserve ⟨1, 1⟩ initSched "BTC_USDT").1
        "ETH_USDT").1.symbol_open_count "ETH_USDT" = 0 := by
  have h := scheduler_reserve_release_caps ⟨1, 1⟩ initSched [] "BTC_USDT" "BTC_USDT" "ETH_USDT"
    ⟨Nat.zero_le 1, fun _ => Nat.zero_le 1⟩ (by decide)
  exact h.2.2.2 rfl (le_refl 1) rfl rfl rfl

/-- C4: in contrarian mode the signal is BUY exactly when `z ≤ -k`, SELL
exactly when `z ≥ +k`, absent exactly when `-k < z < k`, with score `|z|`
where `z = changePct / sigma` for non-negligible sigma and `0` otherwise;
concretely, `sigma = 0.5`, `changePct = -1.3`, `k = 2` gives a BUY signal
with score `2.6`. -/
theorem signal_z_contrarian_rule (change_pct sigma k : ℚ) (hk : 0 < k) :
    ((compute_signal_z change_pct sigma k .contrarian).side = some .BUY ↔
       zOf change_pct sigma ≤ -k) ∧
    ((compute_signal_z change_pct sigma k .contrarian).side = some .SELL ↔
       k ≤ zOf change_pct sigma) ∧
    ((compute_signal_z change_pct sigma k .contrarian).side = none ↔
       (-k < zOf change_pct sigma ∧ zOf change_pct sigma < k)) ∧
    ((compute_signal_z change_pct sigma k .contrarian).side ≠ none →
       (compute_signal_z change_pct sigma k .contrarian).score = |zOf change_pct sigma|) ∧
    compute_signal_z (-13 / 10) (1 / 2) 2 .contrarian =
      { side := some Side.BUY, score := 13 / 5 } := by
  have hconc : compute_signal_z (-13 / 10) (1 / 2) 2 .contrarian =
      { side := some Side.BUY, score := 13 / 5 } := by
    norm_num [compute_signal_z, zOf]
  have hmain : compute_signal_z change_pct sigma k .contrarian =
      (if zOf change_pct sigma ≤ -k then
         { side := some Side.BUY, score := |zOf change_pct sigma| }
       else if zOf change_pct sigma ≥ k then
         { side := some Side.SELL, score := |zOf change_pct sigma| }
       else { side := none, score := 0 }) := rfl
  rw [hmain]
  split_ifs with h1 h2
  · exact ⟨by simp [h1], ⟨fun h => by simp at h, fun h => absurd h (by linarith)⟩,
      ⟨fun h => by simp at h, fun h => absurd h.1 (by linarith)⟩, fun _ => rfl, hconc⟩
  · exact ⟨⟨fun h => by simp at h, fun h => absurd h h1⟩, ⟨fun _ => h2, fun _ => rfl⟩,
      ⟨fun h => by simp at h, fun h => absurd h.2 (by linarith)⟩, fun _ => rfl, hconc⟩
  · exact ⟨⟨fun h => by simp at h, fun h => absurd h h1⟩,
      ⟨fun h => by simp at h, fun h => absurd h h2⟩,
      ⟨fun _ => ⟨not_le.mp h1, not_le.mp h2⟩, fun _ => rfl⟩,
      fun h => absurd rfl h, hconc⟩

/-- Witness for `signal_z_contrarian_rule` at the scenario-B input. -/
theorem signal_z_contrarian_rule_witness :
    (0 : ℚ) < 2 ∧
    ((compute_signal_z (-13 / 10) (1 / 2) 2 .contrarian).side = some .BUY ↔
      zOf (-13 / 10) (1 / 2) ≤ -2) :=
  ⟨by norm_num, (signal_z_contrarian_rule (-13 / 10) (1 / 2) 2 (by norm_num)).1⟩

theorem update_vol_nonneg (lam : ℚ) (h0 : 0 ≤ lam) (h1 : lam ≤ 1)
    (st : VolatilityState) (hst : 0 ≤ st.ewm_var) (ret : ℚ) (w : Nat) :
    0 ≤ (update_volatility_state st ret lam w).ewm_var := by
  simp only [update_volatility_state]
  have ha : 0 ≤ lam * st.ewm_var := mul_nonneg h0 hst
  have hb : 0 ≤ (1 - lam) * (ret * ret) := mul_nonneg (by linarith) (mul_self_nonneg ret)
  linarith

theorem runVolatility_nonneg (lam : ℚ) (h0 : 0 ≤ lam) (h1 : lam ≤ 1) (w : Nat)
    (rets : List ℚ) (st : VolatilityState) (hst : 0 ≤ st.ewm_var) :
    0 ≤ (runVolatility st rets lam w).ewm_var := by
  induction rets generalizing st with
  | nil => exact hst
  | cons r rs ih => exact ih _ (update_vol_nonneg lam h0 h1 st hst r w)

theorem runVolatility_eq_zero (lam : ℚ) (hl0 : 0 < lam) (hl1 : lam < 1) (w : Nat)
    (rets : List ℚ) (st : VolatilityState) (hst : 0 ≤ st.ewm_var)
    (hz : (runVolatility st rets lam w).ewm_var = 0) :
    st.ewm_var = 0 ∧ ∀ r ∈ rets, r = 0 := by
  induction rets generalizing st with
  | nil => exact ⟨hz, by simp⟩
  | cons r rs ih =>
      have hstep : 0 ≤ (update_volatility_state st r lam w).ewm_var :=
        update_vol_nonneg lam (le_of_lt hl0) (le_of_lt hl1) st hst r w
      obtain ⟨hv, hall⟩ := ih (update_volatility_state st r lam w) hstep hz
      have hv' : lam * st.ewm_var + (1 - lam) * (r * r) = 0 := by
        simpa [update_volatility_state] using hv
      have ha : 0 ≤ lam * st.ewm_var := mul_nonneg (le_of_lt hl0) hst
      have hb : 0 ≤ (1 - lam) * (r * r) :=
        mul_nonneg (by linarith) (mul_self_nonneg r)
      have h1 : lam * st.ewm_var = 0 := by linarith
      have h2 : (1 - lam) * (r * r) = 0 := by linarith
      have hlam1 : (0 : ℚ) < 1 - lam := by linarith
      have hr : r = 0 := by
        rcases mul_eq_zero.mp h2 with h | h
        · exact absurd h (ne_of_gt hlam1)
        · exact mul_self_eq_zero.mp h
      have hvar : st.ewm_var = 0 := by
        rcases mul_eq_zero.mp h1 with h | h
        · exact absurd h (ne_of_gt hl0)
        · exact h
      refine ⟨hvar, fun x hx => ?_⟩
      rcases List.mem_cons.mp hx with hx | hx
      · rw [hx]; exact hr
      · exact hall x hx

/-- C5: one volatility update yields exactly
`ewmVariance' = λ·ewmVariance + (1−λ)·r²`; for `0 ≤ λ ≤ 1` the variance
stays non-negative along every stream of updates started from a
non-negative variance; and for `0 < λ < 1` a stream started from variance
`0` ends at `0` only when every return in the stream was `0`. -/
theorem ewm_variance_update_law (lam : ℚ) (st : VolatilityState) (r : ℚ)
    (rets : List ℚ) (w0 : List ℚ) (max_window : Nat)
    (h0 : 0 ≤ lam) (h1 : lam ≤ 1) :
    (update_volatility_state st r lam max_window).ewm_var
        = lam * st.ewm_var + (1 - lam) * r ^ 2 ∧
    (0 ≤ st.ewm_var → 0 ≤ (runVolatility st rets lam max_window).ewm_var) ∧
    (0 < lam → lam < 1 →
      (runVolatility ⟨0, w0⟩ rets lam max_window).ewm_var = 0 → ∀ x ∈ rets, x = 0) := by
  refine ⟨?_, ?_, ?_⟩
  · simp only [update_volatility_state]
    ring
  · intro hst
    exact runVolatility_nonneg lam h0 h1 max_window rets st hst
  · intro hl0 hl1 hz
    exact (runVolatility_eq_zero lam hl0 hl1 max_window rets ⟨0, w0⟩ (le_refl 0) hz).2

/-- Witness for `ewm_variance_update_law` at `λ = 0.94`, driving a
two-tick stream from variance `0`. -/
theorem ewm_variance_update_law_witness :
    (update_volatility_state ⟨0, []⟩ 1 (94 / 100) 300).ewm_var
        = 94 / 100 * 0 + (1 - 94 / 100) * 1 ^ 2 ∧
    (0 ≤ (0 : ℚ) → 0 ≤ (runVolatility ⟨0, []⟩ [1, 0] (94 / 100) 300).ewm_var) ∧
    (0 < (94 : ℚ) / 100 → (94 : ℚ) / 100 < 1 →
      (runVolatility ⟨0, []⟩ [1, 0] (94 / 100) 300).ewm_var = 0 →
      ∀ x ∈ ([1, 0] : List ℚ), x = 0) :=
  ewm_variance_update_law (94 / 100) ⟨0, []⟩ 1 [1, 0] [] 300 (by norm_num) (by norm_num)

/-! Exit-rule theorems (claims C2 and C3). -/

/-- The configuration of scenario C of the spec (stop-loss): 2% stop-loss,
0.1% hysteresis, 10s minimum hold. -/
def scenarioCfgC : ExitConfig :=
  { stop_loss_percent := 2, take_profit_percent := 3, exit_hysteresis_percent := 1 / 10,
    min_hold_sec := 10, trailing_enabled := true,
    trailing_activation_gain_percent := 2, trailing_retrace_percent := 1 / 4 }

/-- The configuration of scenario D of the spec (trailing): retrace 0.25%,
activation gain 2%; take-profit set wide so the TP branch does not
pre-empt the trailing branch at the scenario's price. -/
def scenarioCfgD : ExitConfig :=
  { stop_loss_percent := 2, take_profit_percent := 5, exit_hysteresis_percent := 1 / 10,
    min_hold_sec := 25, trailing_enabled := true,
    trailing_activation_gain_percent := 2, trailing_retrace_percent := 1 / 4 }

/-- A configuration separating the code's trailing stop from the spec
formula: retrace 1%, wide take-profit. -/
def scenarioCfgE : ExitConfig :=
  { stop_loss_percent := 2, take_profit_percent := 50, exit_hysteresis_percent := 1 / 10,
    min_hold_sec := 10, trailing_enabled := true,
    trailing_activation_gain_percent := 2, trailing_retrace_percent := 1 }

/-- C2: for a positive price, the stop-loss exit fires on a tick exactly
when the minimum hold has elapsed and
`price ≤ entry·(1 − slPct/100)·(1 − hystPct/100)`; before the minimum hold
no positive price triggers it.  Concretely (scenario C): price 97 at 5s
does not trigger, price 97.8 at 15s triggers (threshold 97.902). -/
theorem stop_loss_hold_gate (cfg : ExitConfig)
    (entry_price max_price_since_entry elapsed price : ℚ) (force_close : Bool)
    (hp : 0 < price) :
    (evalExit cfg entry_price max_price_since_entry elapsed price force_close = some .SL ↔
      (cfg.min_hold_sec ≤ elapsed ∧
       price ≤ entry_price * (1 - cfg.stop_loss_percent / 100) *
         (1 - cfg.exit_hysteresis_percent / 100))) ∧
    (elapsed < cfg.min_hold_sec →
      evalExit cfg entry_price max_price_since_entry elapsed price force_close ≠ some .SL) ∧
    evalExit scenarioCfgC 100 100 5 97 false = none ∧
    evalExit scenarioCfgC 100 100 15 (978 / 10) false = some .SL := by
  have hiff : evalExit cfg entry_price max_price_since_entry elapsed price force_close
        = some .SL ↔
      (cfg.min_hold_sec ≤ elapsed ∧
       price ≤ entry_price * (1 - cfg.stop_loss_percent / 100) *
         (1 - cfg.exit_hysteresis_percent / 100)) := by
    simp only [evalExit]
    by_cases hold : cfg.min_hold_sec ≤ elapsed
    · simp only [if_pos hold, hold, true_and, if_true]
      by_cases hsl : price ≤ entry_price * (1 - cfg.stop_loss_percent / 100) *
          (1 - cfg.exit_hysteresis_percent / 100)
      · simp [hsl]
      · rw [if_neg hsl]
        simp only [hsl, iff_false]
        split_ifs <;> simp
    · have hptrig : ¬price ≤ (0 : ℚ) := not_le.mpr hp
      simp only [if_neg hold, hold, false_and, if_neg hptrig, if_false, false_iff,
        not_and]
      split_ifs <;> simp_all
  refine ⟨hiff, fun hlt hsl => ?_, ?_, ?_⟩
  · exact absurd (hiff.mp hsl).1 (not_le.mpr hlt)
  · norm_num [evalExit, scenarioCfgC, updatePeak, gainFromEntryPct, trailingStop, max_def]
  · norm_num [evalExit, scenarioCfgC, updatePeak, gainFromEntryPct, trailingStop, max_def]

/-- Witness for `stop_loss_hold_gate` at the scenario-C tick. -/
theorem stop_loss_hold_gate_witness :
    evalExit scenarioCfgC 100 100 15 (978 / 10) false = some .SL :=
  (stop_loss_hold_gate scenarioCfgC 100 100 15 (978 / 10) false (by norm_num)).2.2.2

/-- C3 counterexample: spot2's worker computes the trailing stop as
`peak × (1 − retracePct/100)` only (bot.py line 694); with peak 100,
retrace 1%, atrMultiplier 1 and recentAvgAbsMove 0.5 the spec formula
`max(peak × (1 − retracePct/100), peak − atrMultiplier × recentAvgAbsMove)`
gives 99.5 while the code's level is 99, and at price 99.2 — at or below
the spec-formula level — the code fires no trailing exit. -/
theorem trailing_atr_term_counterexample :
    trailingStopSpec 100 1 1 (1 / 2) ≠ trailingStop 100 1 ∧
    (496 / 5 : ℚ) ≤ trailingStopSpec 100 1 1 (1 / 2) ∧
    evalExit scenarioCfgE 95 100 20 (496 / 5) false = none := by
  refine ⟨?_, ?_, ?_⟩
  · norm_num [trailingStopSpec, trailingStop, max_def]
  · norm_num [trailingStopSpec, max_def]
  · norm_num [evalExit, scenarioCfgE, updatePeak, gainFromEntryPct, trailingStop, max_def]

/-- C3 (amended): in spot2 the trailing level is
`peak × (1 − retracePct/100)` with no ATR term; when trailing is enabled,
the minimum hold has elapsed, the peak gain has reached the activation
gain, and neither the stop-loss nor the take-profit branch fires first,
the TRAIL exit fires exactly when `price ≤ peak × (1 − retracePct/100)`.
Concretely (scenario D): peak 104, retrace 0.25 give level 103.74 and
price 103.5 triggers the TRAIL exit. -/
theorem trailing_stop_retrace_only (cfg : ExitConfig)
    (entry_price max_price_since_entry elapsed price : ℚ) (force_close : Bool)
    (henabled : cfg.trailing_enabled = true)
    (hhold : cfg.min_hold_sec ≤ elapsed)
    (hgain : cfg.trailing_activation_gain_percent ≤
      gainFromEntryPct entry_price (updatePeak entry_price max_price_since_entry price))
    (hnsl : entry_price * (1 - cfg.stop_loss_percent / 100) *
      (1 - cfg.exit_hysteresis_percent / 100) < price)
    (hntp : price < entry_price * (1 + cfg.take_profit_percent / 100) *
      (1 + cfg.exit_hysteresis_percent / 100)) :
    (evalExit cfg entry_price max_price_since_entry elapsed price force_close = some .TRAIL ↔
      price ≤ trailingStop (updatePeak entry_price max_price_since_entry price)
        cfg.trailing_retrace_percent) ∧
    trailingStop 104 (1 / 4) = 10374 / 100 ∧
    evalExit scenarioCfgD 100 104 30 (1035 / 10) false = some .TRAIL := by
  refine ⟨?_, by norm_num [trailingStop], ?_⟩
  · simp only [evalExit, if_pos hhold]
    rw [if_neg (not_le.mpr hnsl)]
    rw [if_neg (by
      intro hc
      exact absurd hc.2 (not_le.mpr hntp))]
    by_cases htr : price ≤ trailingStop (updatePeak entry_price max_price_since_entry price)
        cfg.trailing_retrace_percent
    · rw [if_pos ⟨henabled, hhold, hgain, htr⟩]
      simp [htr]
    · rw [if_neg (by
        intro hc
        exact absurd hc.2.2.2 htr)]
      simp only [htr, iff_false]
      split_ifs <;> simp
  · norm_num [evalExit, scenarioCfgD, updatePeak, gainFromEntryPct, trailingStop, max_def]

/-- Witness for `trailing_stop_retrace_only` at the scenario-D tick. -/
theorem trailing_stop_retrace_only_witness :
    evalExit scenarioCfgD 100 104 30 (1035 / 10) false = some .TRAIL ↔
      (1035 / 10 : ℚ) ≤ trailingStop (updatePeak 100 104 (1035 / 10))
        scenarioCfgD.trailing_retrace_percent :=
  (trailing_stop_retrace_only scenarioCfgD 100 104 30 (1035 / 10) false rfl
    (by norm_num [scenarioCfgD])
    (by norm_num [scenarioCfgD, gainFromEntryPct, updatePeak, max_def])
    (by norm_num [scenarioCfgD])
    (by norm_num [scenarioCfgD])).1

/-! Exit normalization theorems (claim C6). -/

/-- Rules with a minimum trade size of 0.1 and a minimum notional of 10. -/
def rulesMinNotional10 : SymbolRules :=
  { basePrecision := some 6, quotePrecision := some 2, minTradeSize := some (1 / 10),
    maxTradeSize := none, minAmount := some 10, minTradeAmount := none,
    minNotional := none, minTradeDumping := none, maxTradeDumping := none }

/-- C6 counterexample: `place_exit_market` performs no minimum-notional
check.  With `minTradeSize = 0.1` and minimum notional 10, an exit of 0.5
units — notional 0.5 at a price of 1, far below the minimum — is sent as
a market order instead of returning a typed "too small" error. -/
theorem market_exit_no_notional_check_counterexample :
    rulesMinNotional10.minAmount = some 10 ∧
    (1 : ℚ) * (1 / 2) < 10 ∧
    place_exit_market rulesMinNotional10 (1 / 2) = .marketOrder (1 / 2) := by
  refine ⟨rfl, by norm_num, ?_⟩
  norm_num [place_exit_market, rulesMinNotional10, floorToPrecision, pyInt, clampDumping,
    show ((6 : Int)).toNat = 6 from rfl]

/-- C6 (amended): a market exit returns the typed `size_too_small` error —
sending nothing — exactly when the precision-floored quantity is below
`minTradeSize` (it performs no minimum-notional check); a maker-preferred
limit exit returns the typed `notional_too_small` error — sending
nothing — exactly when the normalized quantity is below `minTradeSize` or
the conservative reference notional is below the minimum notional, and
otherwise places the limit sell with the normalized price and quantity. -/
theorem exit_too_small_rejection (rules : SymbolRules) (qty min_price : ℚ)
    (b1 b2 : Option BookTicker) :
    (place_exit_market rules qty = .rejected "size_too_small" ↔
      ∃ ms, rules.minTradeSize = some ms ∧
        floorToPrecision (rules.basePrecision.getD 6) qty < ms) ∧
    (place_exit_limit_maker_sell rules qty min_price b1 b2 = .rejected "notional_too_small" ↔
      exitSellTooSmall rules (normalizedSellQty rules qty)
        (sellPriceRef rules min_price b1 b2) = true) ∧
    (exitSellTooSmall rules (normalizedSellQty rules qty)
        (sellPriceRef rules min_price b1 b2) = false →
      place_exit_limit_maker_sell rules qty min_price b1 b2 =
        .limitOrder (sellLimitPx rules min_price b1) (normalizedSellQty rules qty)) := by
  refine ⟨?_, ?_, ?_⟩
  · cases hms : rules.minTradeSize with
    | none => simp [place_exit_market, hms]
    | some ms =>
        by_cases h : floorToPrecision (rules.basePrecision.getD 6) qty < ms
        · simp [place_exit_market, hms, h]
        · simp [place_exit_market, hms, h]
  · by_cases h : exitSellTooSmall rules (normalizedSellQty rules qty)
        (sellPriceRef rules min_price b1 b2) = true
    · simp [place_exit_limit_maker_sell, h]
    · simp [place_exit_limit_maker_sell, h]
  · intro h
    simp [place_exit_limit_maker_sell, h]

/-- Witness for `exit_too_small_rejection`: an exit of 0.05 units against
a 0.1 minimum size is rejected with the typed error. -/
theorem exit_too_small_rejection_witness :
    place_exit_market rulesMinNotional10 (1 / 20) = .rejected "size_too_small" :=
  (exit_too_small_rejection rulesMinNotional10 (1 / 20) 1 none none).1.mpr
    ⟨1 / 10, rfl, by norm_num [rulesMinNotional10, floorToPrecision, pyInt,
      show ((6 : Int)).toNat = 6 from rfl]⟩

/-! Worker exit finalization (claim C7). -/

theorem lookup_filter_ne_self (l : List (String × Json)) (a : String) :
    (l.filter fun kv => kv.1 ≠ a).lookup a = none := by
  induction l with
  | nil => rfl
  | cons kv rest ih =>
      by_cases h : kv.1 = a
      · simpa [List.filter_cons, h] using ih
      · simpa [List.filter_cons, h, List.lookup_cons, beq_iff_eq, Ne.symm h] using ih

theorem clear_symbol_removes (file : Option Json) (symbol : String) :
    (storeLoad (clear_symbol file symbol)).lookup symbol = none := by
  unfold clear_symbol
  by_cases h : ((storeLoad file).lookup symbol).isSome
  · rw [if_pos h]
    exact lookup_filter_ne_self _ _
  · rw [if_neg h]
    exact Option.not_isSome_iff_eq_none.mp h

/-- C7 (amended): the finalize step of an exit attempt removes the
symbol's persisted entry, resets the in-memory position and releases the
slots only when the execution response reports success; on a failed exit
the position, the persisted entry and the reservations are all kept for the
next tick, and the worker halts exactly when the error code starts with
`notional_too_small`. -/
theorem exit_finalize_state_persistence (symbol : String) (resp_ok : Bool)
    (resp_err : Option String) (st : WorkerPos) (file : Option Json) (sched : SchedState) :
    (resp_ok = true →
      (finalizeExitTick symbol resp_ok resp_err st file sched).pos.in_position = false ∧
      (storeLoad (finalizeExitTick symbol resp_ok resp_err st file sched).file).lookup symbol
        = none ∧
      (finalizeExitTick symbol resp_ok resp_err st file sched).sched =
        releaseSlot sched symbol ∧
      (finalizeExitTick symbol resp_ok resp_err st file sched).halted = false) ∧
    (resp_ok = false →
      (finalizeExitTick symbol resp_ok resp_err st file sched).pos = st ∧
      (finalizeExitTick symbol resp_ok resp_err st file sched).file = file ∧
      (finalizeExitTick symbol resp_ok resp_err st file sched).sched = sched ∧
      ((finalizeExitTick symbol resp_ok resp_err st file sched).halted = true ↔
        ((resp_err.getD "").toLower).startsWith "notional_too_small" = true)) := by
  constructor
  · intro hok
    subst hok
    exact ⟨rfl, clear_symbol_removes file symbol, rfl, rfl⟩
  · intro hfail
    subst hfail
    exact ⟨rfl, rfl, rfl, Iff.rfl⟩

/-- A sample open position used to instantiate the finalize step. -/
def samplePos : WorkerPos :=
  { in_position := true, side := some .BUY, quantity := 1, entry_price := 100,
    stop_loss := 98, take_profit := 103, entry_time := 0, max_price_since_entry := 100 }

/-- Witness for `exit_finalize_state_persistence`: a failed exit with a
`notional_too_small` error keeps the persisted file and halts the worker. -/
theorem exit_finalize_state_persistence_witness :
    (finalizeExitTick "BTC_USDT" false (some "notional_too_small") samplePos
        (storeSave [("BTC_USDT", Json.bool true)]) initSched).file =
      storeSave [("BTC_USDT", Json.bool true)] ∧
    ((finalizeExitTick "BTC_USDT" false (some "notional_too_small") samplePos
        (storeSave [("BTC_USDT", Json.bool true)]) initSched).halted = true ↔
      (((some "notional_too_small").getD "").toLower).startsWith "notional_too_small"
        = true) := by
  have h := (exit_finalize_state_persistence "BTC_USDT" false (some "notional_too_small")
    samplePos (storeSave [("BTC_USDT", Json.bool true)]) initSched).2 rfl
  exact ⟨h.2.1, h.2.2.2⟩

theorem mapAux_fix (f : Char → Char) (i : String.Pos) (s : String)
    (hne : s.atEnd i = false) (hset : s.set i (f (s.get i)) = s) :
    String.mapAux f i s = String.mapAux f (s.next i) s := by
  rw [String.mapAux]
  rw [dif_neg (by simp [hne])]
  simp only [hset]

theorem toLower_size_too_small : "size_too_small".toLower = "size_too_small" := by
  show String.mapAux Char.toLower 0 "size_too_small" = _
  rw [mapAux_fix _ _ _ (by decide) (by decide)]
  rw [mapAux_fix _ _ _ (by decide) (by decide)]
  rw [mapAux_fix _ _ _ (by decide) (by decide)]
  rw [mapAux_fix _ _ _ (by decide) (by decide)]
  rw [mapAux_fix _ _ _ (by decide) (by decide)]
  rw [mapAux_fix _ _ _ (by decide) (by decide)]
  rw [mapAux_fix _ _ _ (by decide) (by decide)]
  rw [mapAux_fix _ _ _ (by decide) (by decide)]
  rw [mapAux_fix _ _ _ (by decide) (by decide)]
  rw [mapAux_fix _ _ _ (by decide) (by decide)]
  rw [mapAux_fix _ _ _ (by decide) (by decide)]
  rw [mapAux_fix _ _ _ (by decide) (by decide)]
  rw [mapAux_fix _ _ _ (by decide) (by decide)]
  rw [mapAux_fix _ _ _ (by decide) (by decide)]
  rw [String.mapAux]
  rw [dif_pos (by decide)]

/-- C7 counterexample: an exit rejected for being below the minimum
tradable size on the market path — `place_exit_market`'s typed
`size_too_small` error (execution.py line 271), the path taken by every
stop-loss exit — does not stop the worker: bot.py line 775 halts only on
errors starting with `notional_too_small`, so the finalize step keeps the
position, keeps the persisted entry, and leaves the worker running to
retry the same doomed exit on every tick. -/
theorem size_too_small_no_halt_counterexample :
    place_exit_market rulesMinNotional10 (1 / 20) = .rejected "size_too_small" ∧
    (finalizeExitTick "BTC_USDT" false (some "size_too_small") samplePos
        (storeSave [("BTC_USDT", Json.bool true)]) initSched).halted = false ∧
    (finalizeExitTick "BTC_USDT" false (some "size_too_small") samplePos
        (storeSave [("BTC_USDT", Json.bool true)]) initSched).pos = samplePos ∧
    (finalizeExitTick "BTC_USDT" false (some "size_too_small") samplePos
        (storeSave [("BTC_USDT", Json.bool true)]) initSched).file =
      storeSave [("BTC_USDT", Json.bool true)] := by
  refine ⟨?_, ?_, rfl, rfl⟩
  · unfold place_exit_market
    norm_num [rulesMinNotional10, floorToPrecision, pyInt,
      show ((6 : Int)).toNat = 6 from rfl]
  · show "size_too_small".toLower.startsWith "notional_too_small" = false
    rw [toLower_size_too_small]
    decide

/-! Exchange client retry policy (claim C8). -/

/-- C8 counterexample: `place_limit_order` performs no retry — an HTTP 429
is returned to the caller immediately as a terminal typed `rate_limited`
failure, contradicting "retried with backoff, never surfaced to the
caller as a terminal failure" for that call. -/
theorem limit_order_rate_limited_terminal_counterexample :
    placeLimitOrderResp (.http 429 false "" "") =
      { ok := false, error := some "rate_limited" } := by
  simp [placeLimitOrderResp]

theorem marketOrderLoop_sleep_bounds (stream : List HttpResp) (attempt : Nat) :
    ∀ e ∈ (marketOrderLoop stream attempt).2,
      (e.1 = BackoffKind.rate → e.2 ≤ 60 ∧ ∃ i, e.2 = min 60 (2 ^ i)) ∧
      (e.1 = BackoffKind.server → e.2 ≤ 10 ∧ ∃ i, e.2 = min 10 (2 ^ i)) := by
  induction stream generalizing attempt with
  | nil => intro e he; simp [marketOrderLoop] at he
  | cons r rest ih =>
      intro e he
      cases r with
      | netError m => simp [marketOrderLoop] at he
      | http status result_false code msg =>
          by_cases h429 : status = 429
          · simp only [marketOrderLoop, if_pos h429] at he
            rcases List.mem_cons.mp he with he | he
            · subst he
              exact ⟨fun _ => ⟨Nat.min_le_left _ _, attempt + 1, rfl⟩,
                fun hc => by simp at hc⟩
            · exact ih (attempt + 1) e he
          · by_cases h5 : 500 ≤ status
            · simp only [marketOrderLoop, if_neg h429, if_pos h5] at he
              rcases List.mem_cons.mp he with he | he
              · subst he
                exact ⟨fun hc => by simp at hc,
                  fun _ => ⟨Nat.min_le_left _ _, attempt + 1, rfl⟩⟩
              · exact ih (attempt + 1) e he
            · simp [marketOrderLoop, h429, h5] at he

theorem marketOrderLoop_retryable_none (stream : List HttpResp) (attempt : Nat)
    (hall : ∀ r ∈ stream, retryable r) :
    (marketOrderLoop stream attempt).1 = none := by
  induction stream generalizing attempt with
  | nil => rfl
  | cons r rest ih =>
      have hr := hall r (List.mem_cons_self r rest)
      cases r with
      | netError m => exact absurd hr id
      | http status result_false code msg =>
          have htail : ∀ x ∈ rest, retryable x := fun x hx => hall x (List.mem_cons_of_mem _ hx)
          by_cases h429 : status = 429
          · simp only [marketOrderLoop, if_pos h429]
            exact ih (attempt + 1) htail
          · have h5 : 500 ≤ status := by
              rcases hr with h | h
              · exact absurd h h429
              · exact h
            simp only [marketOrderLoop, if_neg h429, if_pos h5]
            exact ih (attempt + 1) htail

/-- C8 (amended): `place_market_order` implements the retry policy — on
HTTP 429 it sleeps exactly `min(60, 2^attempt)` (never more than 60s) and
retries, on HTTP 5xx it sleeps exactly `min(10, 2^attempt)` (never more
than 10s) and retries, never returning a 429/5xx as a terminal result,
and any other response is returned immediately with no backoff; but
`place_limit_order` performs no retry at all: it returns HTTP 429 to the
caller as a typed terminal `rate_limited` error. -/
theorem market_order_retry_policy (stream rest : List HttpResp) (attempt : Nat)
    (status : Nat) (result_false : Bool) (code msg : String) :
    (∀ e ∈ (marketOrderLoop stream attempt).2,
      (e.1 = BackoffKind.rate → e.2 ≤ 60 ∧ ∃ i, e.2 = min 60 (2 ^ i)) ∧
      (e.1 = BackoffKind.server → e.2 ≤ 10 ∧ ∃ i, e.2 = min 10 (2 ^ i))) ∧
    ((∀ r ∈ stream, retryable r) → (marketOrderLoop stream attempt).1 = none) ∧
    (status ≠ 429 → status < 500 →
      marketOrderLoop (.http status result_false code msg :: rest) attempt =
        (some (terminalResp status result_false code msg), [])) ∧
    placeLimitOrderResp (.http 429 result_false code msg) =
      { ok := false, error := some "rate_limited" } := by
  refine ⟨marketOrderLoop_sleep_bounds stream attempt,
    marketOrderLoop_retryable_none stream attempt, ?_, by simp [placeLimitOrderResp]⟩
  intro h429 h5
  simp [marketOrderLoop, h429, Nat.not_le.mpr h5]

/-- Witness for `market_order_retry_policy`: a 400 response is returned
immediately as a typed error with no backoff sleeps. -/
theorem market_order_retry_policy_witness :
    marketOrderLoop [HttpResp.http 400 false "" ""] 0 =
      (some (terminalResp 400 false "" ""), []) :=
  (market_order_retry_policy [HttpResp.http 400 false "" ""] [] 0 400 false "" "").2.2.1
    (by decide) (by decide)

/-! State-store round trip (claim C9). -/

/-- The persisted-position fields of the spec's state-file schema (§6). -/
def positionFields : List String :=
  ["in_position", "side", "quantity", "entry_price", "stop_loss", "take_profit",
   "order_id", "entry_time", "last_exit_time", "max_price_since_entry"]

/-- The claim's schema condition on a per-symbol entry: `in_position` is
`false`, or `in_position` is `true` and every open-position field is
present. -/
def schemaOk (j : Json) : Bool :=
  match j with
  | .obj fields =>
      (match fields.lookup "in_position" with
       | some (.bool false) => true
       | some (.bool true) => positionFields.all fun k => (fields.lookup k).isSome
       | _ => false)
  | _ => false

/-- C9: `save` followed by `load` returns the state map unchanged for
every map whose entries satisfy the schema condition (the JSON text codec
being the standard library's, modelled as the identity on parsed trees). -/
theorem state_store_round_trip (m : StoreMap)
    (h : ∀ kv ∈ m, schemaOk kv.2 = true) :
    storeLoad (storeSave m) = m := rfl

/-- Witness for `state_store_round_trip` on a one-symbol flat state. -/
theorem state_store_round_trip_witness :
    storeLoad (storeSave [("BTC_USDT", Json.obj [("in_position", Json.bool false)])]) =
      [("BTC_USDT", Json.obj [("in_position", Json.bool false)])] :=
  state_store_round_trip [("BTC_USDT", Json.obj [("in_position", Json.bool false)])]
    (by
      intro kv hkv
      rw [List.mem_singleton] at hkv
      rw [hkv]
      rfl)

/-! Z-score history invariants (claim C10). -/

theorem zpush_preserves (h : ZScoreHistory) (z : ℚ)
    (hv : ∀ v ∈ h.values, 0 ≤ v) (hl : h.values.length ≤ h.maxlen) :
    (∀ v ∈ (h.push z).values, 0 ≤ v) ∧
    (h.push z).values.length ≤ h.maxlen ∧ (h.push z).maxlen = h.maxlen := by
  unfold ZScoreHistory.push
  refine ⟨?_, ?_, rfl⟩
  · intro v hvmem
    have hv' : v ∈ h.values ++ [max 0 z] := List.drop_subset _ _ hvmem
    rcases List.mem_append.mp hv' with h1 | h2
    · exact hv v h1
    · rw [List.mem_singleton.mp h2]
      exact le_max_left 0 z
  · simp only [List.length_drop, List.length_append, List.length_singleton]
    omega

theorem zfold_inv (zs : List ℚ) (h : ZScoreHistory)
    (hv : ∀ v ∈ h.values, 0 ≤ v) (hl : h.values.length ≤ h.maxlen) :
    (∀ v ∈ (zs.foldl ZScoreHistory.push h).values, 0 ≤ v) ∧
    (zs.foldl ZScoreHistory.push h).values.length ≤
      (zs.foldl ZScoreHistory.push h).maxlen ∧
    (zs.foldl ZScoreHistory.push h).maxlen = h.maxlen := by
  induction zs generalizing h with
  | nil => exact ⟨hv, hl, rfl⟩
  | cons z rest ih =>
      obtain ⟨hv', hl', hm'⟩ := zpush_preserves h z hv hl
      obtain ⟨a, b, c⟩ := ih (h.push z) hv' (hm' ▸ hl')
      exact ⟨a, b, c.trans hm'⟩

theorem percentile_empty (h : ZScoreHistory) (p : ℚ) (he : h.values = []) :
    h.percentile p = 0 := by
  simp [ZScoreHistory.percentile, he]

theorem percentile_mem (h : ZScoreHistory) (p : ℚ) (hne : h.values ≠ []) :
    h.percentile p ∈ h.values := by
  unfold ZScoreHistory.percentile
  have hperm : List.Perm (List.insertionSort (· ≤ ·) h.values) h.values :=
    List.perm_insertionSort _ _
  have harrne : List.insertionSort (· ≤ ·) h.values ≠ [] := by
    intro hnil
    apply hne
    have h0 := hperm.length_eq
    rw [hnil] at h0
    exact List.length_eq_zero.mp h0.symm
  have hnempty : ¬(List.insertionSort (· ≤ ·) h.values).isEmpty := by
    simpa [List.isEmpty_iff] using harrne
  rw [if_neg hnempty]
  have hn1 : 1 ≤ (List.insertionSort (· ≤ ·) h.values).length :=
    List.length_pos.mpr harrne
  have hn1q : (1 : ℚ) ≤ ((List.insertionSort (· ≤ ·) h.values).length : ℚ) := by
    exact_mod_cast hn1
  have hp0 : 0 ≤ min (999 / 1000 : ℚ) (max 0 p) :=
    le_min (by norm_num) (le_max_left 0 p)
  have hx0 : 0 ≤ min (999 / 1000 : ℚ) (max 0 p) *
      (((List.insertionSort (· ≤ ·) h.values).length : ℚ) - 1) :=
    mul_nonneg hp0 (by linarith)
  have hxlt : min (999 / 1000 : ℚ) (max 0 p) *
      (((List.insertionSort (· ≤ ·) h.values).length : ℚ) - 1) <
      ((List.insertionSort (· ≤ ·) h.values).length : ℚ) := by
    have h1 : min (999 / 1000 : ℚ) (max 0 p) *
        (((List.insertionSort (· ≤ ·) h.values).length : ℚ) - 1) ≤
        (999 / 1000) * (((List.insertionSort (· ≤ ·) h.values).length : ℚ) - 1) :=
      mul_le_mul_of_nonneg_right (min_le_left _ _) (by linarith)
    nlinarith
  have hpy : pyInt (min (999 / 1000 : ℚ) (max 0 p) *
      (((List.insertionSort (· ≤ ·) h.values).length : ℚ) - 1)) =
      ⌊min (999 / 1000 : ℚ) (max 0 p) *
        (((List.insertionSort (· ≤ ·) h.values).length : ℚ) - 1)⌋ := by
    unfold pyInt
    exact if_pos hx0
  simp only [hpy]
  have hfl : ⌊min (999 / 1000 : ℚ) (max 0 p) *
      (((List.insertionSort (· ≤ ·) h.values).length : ℚ) - 1)⌋ <
      ((List.insertionSort (· ≤ ·) h.values).length : ℤ) := by
    apply Int.floor_lt.mpr
    push_cast
    exact hxlt
  have hflnn : 0 ≤ ⌊min (999 / 1000 : ℚ) (max 0 p) *
      (((List.insertionSort (· ≤ ·) h.values).length : ℚ) - 1)⌋ :=
    Int.floor_nonneg.mpr hx0
  have hk : (⌊min (999 / 1000 : ℚ) (max 0 p) *
      (((List.insertionSort (· ≤ ·) h.values).length : ℚ) - 1)⌋).toNat <
      (List.insertionSort (· ≤ ·) h.values).length := by omega
  rw [List.getD_eq_getElem _ _ hk]
  exact hperm.subset (List.getElem_mem hk)

/-- C10: folding any stream of pushes from an empty history, every stored
value is non-negative (push clamps below at 0), the history never exceeds
its bound (oldest evicted first), `percentile` returns 0 on the empty
history and otherwise one of the stored values, and the dynamic threshold
`max(staticK, percentile)` is always at least `staticK`. -/
theorem zscore_history_invariants (bound : Nat) (zs : List ℚ) (p k_base : ℚ) :
    (∀ v ∈ (zs.foldl ZScoreHistory.push ⟨bound, []⟩).values, 0 ≤ v) ∧
    (zs.foldl ZScoreHistory.push ⟨bound, []⟩).values.length ≤ bound ∧
    ((zs.foldl ZScoreHistory.push ⟨bound, []⟩).values = [] →
      (zs.foldl ZScoreHistory.push ⟨bound, []⟩).percentile p = 0) ∧
    ((zs.foldl ZScoreHistory.push ⟨bound, []⟩).values ≠ [] →
      (zs.foldl ZScoreHistory.push ⟨bound, []⟩).percentile p
        ∈ (zs.foldl ZScoreHistory.push ⟨bound, []⟩).values) ∧
    k_base ≤ effectiveK k_base ((zs.foldl ZScoreHistory.push ⟨bound, []⟩).percentile p) := by
  obtain ⟨hv, hl, hm⟩ := zfold_inv zs ⟨bound, []⟩ (by simp) (by simp)
  refine ⟨hv, le_of_le_of_eq hl hm, percentile_empty _ p, percentile_mem _ p, le_max_left _ _⟩

/-- Witness for `zscore_history_invariants` on a three-push stream with
the default bound 600. -/
theorem zscore_history_invariants_witness :
    (∀ v ∈ (([26/10, -1, 3] : List ℚ).foldl ZScoreHistory.push ⟨600, []⟩).values, 0 ≤ v) ∧
    (([26/10, -1, 3] : List ℚ).foldl ZScoreHistory.push ⟨600, []⟩).values.length ≤ 600 ∧
    ((([26/10, -1, 3] : List ℚ).foldl ZScoreHistory.push ⟨600, []⟩).values = [] →
      (([26/10, -1, 3] : List ℚ).foldl ZScoreHistory.push ⟨600, []⟩).percentile (7/10) = 0) ∧
    ((([26/10, -1, 3] : List ℚ).foldl ZScoreHistory.push ⟨600, []⟩).values ≠ [] →
      (([26/10, -1, 3] : List ℚ).foldl ZScoreHistory.push ⟨600, []⟩).percentile (7/10)
        ∈ (([26/10, -1, 3] : List ℚ).foldl ZScoreHistory.push ⟨600, []⟩).values) ∧
    (26/10 : ℚ) ≤ effectiveK (26/10)
      ((([26/10, -1, 3] : List ℚ).foldl ZScoreHistory.push ⟨600, []⟩).percentile (7/10)) :=
  zscore_history_invariants 600 [26/10, -1, 3] (7/10) (26/10)

end TradingBot
